import Mathlib

/-!
Shallow embedding of the per-connection stream relay of the bak-server
repository (src/src/services/websocketService.ts, the WebSocketService
class, together with the graceful-shutdown wiring of src/src/index.ts).

The embedding models the service state (the clients Map, the ping
interval handle, the armed force-kill timers) as a pure value, and each
handler of the source as a pure state transformer that additionally
returns the list of externally visible effects it performs (WebSocket
sends, pings, terminates and closes, child-process signals and stdin
writes), in the order the source performs them.
-/

/-- Milliseconds between liveness-monitor ticks (PING_INTERVAL, 60 seconds). -/
def PING_INTERVAL : Nat := 60000

/-- Milliseconds allowed since the last liveness refresh (PONG_TIMEOUT, 30 seconds). -/
def PONG_TIMEOUT : Nat := 30000

/-- Milliseconds before cleanupClient's force-kill timer fires (the 5000 in cleanupClient). -/
def FORCE_KILL_DELAY : Nat := 5000

/-- Milliseconds before index.ts forces process exit during graceful shutdown. -/
def SHUTDOWN_FORCE_DELAY : Nat := 10000

/-- Raw bytes of a frame or chunk, one Nat per byte (a Node Buffer). -/
abbrev Bytes := List Nat

/-- JSON values, as produced by JSON.parse on an inbound text frame. -/
inductive JVal where
  | jnull : JVal
  | jbool : Bool → JVal
  | jnum : Int → JVal
  | jstr : String → JVal
  | jarr : List JVal → JVal
  | jobj : List (String × JVal) → JVal

/-- First binding of a key in a parsed JSON object (JS object property access;
JSON.parse output has unique keys). -/
def jLookup (fields : List (String × JVal)) (key : String) : Option JVal :=
  match fields with
  | [] => none
  | (k, v) :: rest => if k = key then some v else jLookup rest key

/-- The check message.type === "heartbeat" performed by the ws message handler
on the result of JSON.parse: true exactly when the parse succeeded, produced an
object, and its type property is the string "heartbeat". -/
def isHeartbeat (parsed : Option JVal) : Bool :=
  match parsed with
  | some (JVal.jobj fields) =>
    match jLookup fields "type" with
    | some (JVal.jstr s) => s = "heartbeat"
    | _ => false
  | _ => false

/-- Outbound JSON control messages the service stringifies and sends
(the object literals passed to sendToClient in the source). -/
inductive CtrlMsg where
  | connectionMsg : String → String → CtrlMsg
  | errorMsg : String → CtrlMsg
deriving DecidableEq

/-- True for the connection welcome message (type "connection"). -/
def isConnectionMsg : CtrlMsg → Bool
  | CtrlMsg.connectionMsg _ _ => true
  | CtrlMsg.errorMsg _ => false

/-- True for an error control message (type "error"). -/
def isErrorMsg : CtrlMsg → Bool
  | CtrlMsg.connectionMsg _ _ => false
  | CtrlMsg.errorMsg _ => true

/-- Externally visible actions of the service, in program order. -/
inductive Effect where
  | wsSendText : String → CtrlMsg → Effect
  | wsSendBinary : String → Bytes → Effect
  | wsPing : String → Effect
  | wsTerminate : String → Effect
  | wsClose : String → Effect
  | spawnFFmpeg : String → Effect
  | stdinWrite : String → Bytes → Effect
  | sigToProc : String → String → Effect
  | wssClose : Effect
  | serverCloseBegin : Effect
  | armForcedExit : Nat → Effect
  | processExit : Nat → Effect
deriving DecidableEq

/-- One spawned FFmpeg child process, as far as the source inspects it:
the ChildProcess.killed flag (set once kill() has been invoked) and
whether its stdin stream is destroyed. -/
structure FFmpegProc where
  killed : Bool
  stdinDestroyed : Bool
deriving DecidableEq

/-- WebSocket readyState values the source compares against. -/
inductive ReadyState where
  | wsConnecting : ReadyState
  | wsOpen : ReadyState
  | wsClosing : ReadyState
  | wsClosed : ReadyState
deriving DecidableEq

/-- One entry of the clients Map: the ClientConnection interface of the source
(id, ws, isAlive, lastPing, optional ffmpegProcess); of the ws object only its
readyState is inspected by the service, so only that field is kept. -/
structure ClientConnection where
  id : String
  wsState : ReadyState
  isAlive : Bool
  lastPing : Nat
  ffmpegProcess : Option FFmpegProc
deriving DecidableEq

/-- First value bound to a key (Map.prototype.get; keys are unique in a JS Map). -/
def mapGet {α : Type} (m : List (String × α)) (k : String) : Option α :=
  match m with
  | [] => none
  | (k2, v) :: rest => if k2 = k then some v else mapGet rest k

/-- Map.prototype.set: replace the value at an existing key in place,
else append the new binding (JS Map preserves insertion order). -/
def mapSet {α : Type} (m : List (String × α)) (k : String) (v : α) : List (String × α) :=
  match m with
  | [] => [(k, v)]
  | (k2, v2) :: rest => if k2 = k then (k, v) :: rest else (k2, v2) :: mapSet rest k v

/-- Map.prototype.delete: remove the binding of a key (no-op when absent;
keys are unique in a JS Map, so removing every binding of the key is the same). -/
def mapDelete {α : Type} (m : List (String × α)) (k : String) : List (String × α) :=
  match m with
  | [] => []
  | (k2, v) :: rest => if k2 = k then mapDelete rest k else (k2, v) :: mapDelete rest k

/-- State of one WebSocketService instance: the clients Map (in insertion
order), whether the ping interval is armed, and the snapshots captured by
the force-kill timers that cleanupClient has armed. -/
structure ServiceState where
  clients : List (String × ClientConnection)
  pingIntervalActive : Bool
  pendingForceKills : List (String × FFmpegProc)
deriving DecidableEq

/-- The sendToClient method: stringify and send a control message when the
client is registered and its socket is OPEN; otherwise do nothing. The send
is wrapped in try/catch in the source; a throwing send only logs, so the
model lets sends always succeed. State is unchanged. -/
def sendToClient (st : ServiceState) (clientId : String) (msg : CtrlMsg) : List Effect :=
  match mapGet st.clients clientId with
  | some c =>
    if c.wsState = ReadyState.wsOpen then [Effect.wsSendText clientId msg] else []
  | none => []

/-- The sendToFFmpeg method: drop the buffer when the client is missing, has
no ffmpegProcess, the process has been killed, or its stdin is unavailable;
otherwise write the buffer to the process stdin. A throwing write is caught
and only logged, so the model lets non-destroyed writes succeed. -/
def sendToFFmpeg (st : ServiceState) (clientId : String) (videoBuffer : Bytes) : List Effect :=
  match mapGet st.clients clientId with
  | none => []
  | some c =>
    match c.ffmpegProcess with
    | none => []
    | some p =>
      if p.killed then []
      else if p.stdinDestroyed then []
      else [Effect.stdinWrite clientId videoBuffer]

/-- UTF-8 encoding of one character (Buffer.from on a JS string encodes UTF-8). -/
def utf8EncodeChar (c : Char) : Bytes :=
  let n := c.toNat
  if n < 128 then [n]
  else if n < 2048 then [192 + n / 64, 128 + n % 64]
  else if n < 65536 then [224 + n / 4096, 128 + (n / 64) % 64, 128 + n % 64]
  else [240 + n / 262144, 128 + (n / 4096) % 64, 128 + (n / 64) % 64, 128 + n % 64]

/-- UTF-8 bytes of a string: the Buffer the message handler builds from a text frame. -/
def utf8Encode (s : String) : Bytes :=
  s.data.foldr (fun c acc => utf8EncodeChar c ++ acc) []

/-- Payload of one inbound ws message event. A text frame carries its raw
string together with the result of JSON.parse on it (none when parsing
throws); a binary frame carries its Buffer bytes. -/
inductive WsData where
  | strData : String → Option JVal → WsData
  | bufData : Bytes → WsData

/-- The Buffer the handler converts an inbound message to
(Buffer.isBuffer(data) ? data : Buffer.from(data)). -/
def dataBytes : WsData → Bytes
  | WsData.strData s _ => utf8Encode s
  | WsData.bufData b => b

/-- Tail of the message handler: forward a non-empty buffer to FFmpeg via
sendToFFmpeg, warn and drop an empty one. -/
def forwardData (st : ServiceState) (clientId : String) (videoBuffer : Bytes) : List Effect :=
  if 0 < videoBuffer.length then sendToFFmpeg st clientId videoBuffer else []

/-- The ws message handler (ws.on message): a text frame that parses to JSON
with type "heartbeat" refreshes lastPing and isAlive of the registered client
and is consumed; every other message is converted to a Buffer and, when
non-empty, forwarded to the FFmpeg stdin. Nothing in the model throws, so the
catch branch that would send an error frame is unreachable. -/
def handleMessage (st : ServiceState) (now : Nat) (clientId : String) (data : WsData) :
    ServiceState × List Effect :=
  match data with
  | WsData.strData s parsed =>
    if isHeartbeat parsed then
      match mapGet st.clients clientId with
      | some c =>
        let c2 : ClientConnection := { c with lastPing := now, isAlive := true }
        ({ st with clients := mapSet st.clients clientId c2 }, [])
      | none => (st, [])
    else
      (st, forwardData st clientId (utf8Encode s))
  | WsData.bufData b => (st, forwardData st clientId b)

/-- The ws pong handler: mark the registered client alive and refresh lastPing. -/
def handlePong (st : ServiceState) (now : Nat) (clientId : String) : ServiceState :=
  match mapGet st.clients clientId with
  | some c =>
    let c2 : ClientConnection := { c with isAlive := true, lastPing := now }
    { st with clients := mapSet st.clients clientId c2 }
  | none => st

/-- The createFFmpegProcess method. The spawnOk flag tells whether the spawn
call returns a process or throws (binary unavailable): on success the new
process handle is stored on the client; on failure the catch branch sends one
error control frame to the client and the handle stays unset. -/
def createFFmpegProcess (st : ServiceState) (clientId : String) (spawnOk : Bool) :
    ServiceState × List Effect :=
  match mapGet st.clients clientId with
  | none => (st, [])
  | some c =>
    if spawnOk then
      let proc : FFmpegProc := { killed := false, stdinDestroyed := false }
      let c2 : ClientConnection := { c with ffmpegProcess := some proc }
      ({ st with clients := mapSet st.clients clientId c2 },
       [Effect.spawnFFmpeg clientId])
    else
      (st, sendToClient st clientId
        (CtrlMsg.errorMsg "Failed to initialize black & white video processing"))

/-- The connection handler of setupWebSocketServer: build the client record,
put it in the Map, call createFFmpegProcess, then send the welcome frame. -/
def handleConnect (st : ServiceState) (now : Nat) (clientId : String) (spawnOk : Bool) :
    ServiceState × List Effect :=
  let client : ClientConnection :=
    { id := clientId, wsState := ReadyState.wsOpen, isAlive := true,
      lastPing := now, ffmpegProcess := none }
  let st1 : ServiceState := { st with clients := mapSet st.clients clientId client }
  let r := createFFmpegProcess st1 clientId spawnOk
  let eff2 := sendToClient r.1 clientId
    (CtrlMsg.connectionMsg "Connected to Black & White Video Processing Server" clientId)
  (r.1, r.2 ++ eff2)

/-- The FFmpeg exit handler: clear the ffmpegProcess handle of the client and
never respawn. The source mutates the captured client object; the model writes
through the Map, which agrees whenever the client is still registered. -/
def handleFFmpegExit (st : ServiceState) (clientId : String) : ServiceState :=
  match mapGet st.clients clientId with
  | some c =>
    { st with clients := mapSet st.clients clientId { c with ffmpegProcess := none } }
  | none => st

/-- The FFmpeg error handler: send one error control frame; state unchanged. -/
def handleFFmpegError (st : ServiceState) (clientId : String) : List Effect :=
  sendToClient st clientId (CtrlMsg.errorMsg "FFmpeg process error occurred")

/-- The FFmpeg stdout data handler: forward a non-empty chunk to the client
when its socket is OPEN, else drop it. -/
def handleFFmpegData (st : ServiceState) (clientId : String) (chunk : Bytes) : List Effect :=
  match mapGet st.clients clientId with
  | some c =>
    if c.wsState = ReadyState.wsOpen ∧ 0 < chunk.length
    then [Effect.wsSendBinary clientId chunk]
    else []
  | none => []

/-- The cleanupClient method: when the client is registered, send SIGTERM to
its FFmpeg process if present and not yet killed (kill() sets the killed flag
on the process object, and the armed 5-second force-kill timer captures that
object, recorded here as a snapshot in pendingForceKills), then delete the id
from the Map; when the client is absent, do nothing. -/
def cleanupClient (st : ServiceState) (clientId : String) : ServiceState × List Effect :=
  match mapGet st.clients clientId with
  | none => (st, [])
  | some client =>
    match client.ffmpegProcess with
    | some p =>
      if p.killed then
        ({ st with clients := mapDelete st.clients clientId }, [])
      else
        let snapshot : FFmpegProc := { p with killed := true }
        let st2 : ServiceState := { st with
          clients := mapDelete st.clients clientId,
          pendingForceKills := st.pendingForceKills ++ [(clientId, snapshot)] }
        (st2, [Effect.sigToProc clientId "SIGTERM"])
    | none => ({ st with clients := mapDelete st.clients clientId }, [])

/-- Body of one force-kill timer armed by cleanupClient: SIGKILL the captured
process only if its killed flag is still false at that point. -/
def fireForceKill (entry : String × FFmpegProc) : List Effect :=
  if entry.2.killed then [] else [Effect.sigToProc entry.1 "SIGKILL"]

/-- One iteration of the liveness-monitor tick over a Map entry: delete a
non-OPEN socket silently; terminate and delete a client whose lastPing is
older than PONG_TIMEOUT; terminate and delete a client that never answered
the previous ping (isAlive still false); otherwise clear isAlive and ping.
The ping is wrapped in try/catch in the source; it does not throw here. -/
def pingTickClient (now : Nat) (acc : ServiceState × List Effect)
    (entry : String × ClientConnection) : ServiceState × List Effect :=
  let st := acc.1
  let clientId := entry.1
  let client := entry.2
  if client.wsState ≠ ReadyState.wsOpen then
    ({ st with clients := mapDelete st.clients clientId }, acc.2)
  else if PONG_TIMEOUT < now - client.lastPing then
    ({ st with clients := mapDelete st.clients clientId },
     acc.2 ++ [Effect.wsTerminate clientId])
  else if client.isAlive = false then
    ({ st with clients := mapDelete st.clients clientId },
     acc.2 ++ [Effect.wsTerminate clientId])
  else
    ({ st with clients := mapSet st.clients clientId { client with isAlive := false } },
     acc.2 ++ [Effect.wsPing clientId])

/-- One tick of the interval armed by startPingInterval: iterate the Map in
insertion order (each iteration deletes at most its own entry, so the JS
forEach visits exactly the entries present at tick start). -/
def pingTick (st : ServiceState) (now : Nat) : ServiceState × List Effect :=
  st.clients.foldl (pingTickClient now) (st, [])

/-- One iteration of the close() loop over a Map entry: run cleanupClient on
the id, then close the socket of the captured client object if it was OPEN. -/
def closeClientStep (acc : ServiceState × List Effect)
    (entry : String × ClientConnection) : ServiceState × List Effect :=
  let r := cleanupClient acc.1 entry.1
  let eff :=
    if entry.2.wsState = ReadyState.wsOpen then [Effect.wsClose entry.1] else []
  (r.1, acc.2 ++ r.2 ++ eff)

/-- The close() method of the service: clear the ping interval, clean up every
client (killing its FFmpeg process and deleting it) and close its socket, then
close the WebSocket server. -/
def serviceClose (st : ServiceState) : ServiceState × List Effect :=
  let st0 : ServiceState := { st with pingIntervalActive := false }
  let r := st.clients.foldl closeClientStep (st0, [])
  (r.1, r.2 ++ [Effect.wssClose])

/-- The public disconnectClient method: when the id is registered, close its
socket, delete it from the Map and return true; otherwise return false. -/
def disconnectClient (st : ServiceState) (clientId : String) :
    Bool × ServiceState × List Effect :=
  match mapGet st.clients clientId with
  | some _ =>
    (true, { st with clients := mapDelete st.clients clientId }, [Effect.wsClose clientId])
  | none => (false, st, [])

/-- The gracefulShutdown closure of index.ts: close the WebSocket service,
begin closing the HTTP server with an exit(0) completion callback, and arm a
10-second timer that forces exit(1). The cleanCloseCompletes flag tells
whether the server close callback runs before that timer fires. -/
def gracefulShutdown (st : ServiceState) (cleanCloseCompletes : Bool) :
    ServiceState × List Effect :=
  let r := serviceClose st
  (r.1, r.2 ++ [Effect.serverCloseBegin, Effect.armForcedExit SHUTDOWN_FORCE_DELAY] ++
    (if cleanCloseCompletes then [Effect.processExit 0] else [Effect.processExit 1]))

/-- Events the service reacts to, each carrying the data its handler reads
(current time for handlers that call Date.now()). -/
inductive Event where
  | evConnect : String → Bool → Nat → Event
  | evMessage : String → WsData → Nat → Event
  | evPong : String → Nat → Event
  | evClose : String → Event
  | evError : String → Event
  | evFFmpegExit : String → Event
  | evFFmpegError : String → Event
  | evFFmpegData : String → Bytes → Event
  | evPingTick : Nat → Event

/-- Dispatch one event to its handler. The ws close and error handlers both
call cleanupClient. -/
def step (st : ServiceState) (e : Event) : ServiceState × List Effect :=
  match e with
  | Event.evConnect clientId spawnOk now => handleConnect st now clientId spawnOk
  | Event.evMessage clientId data now => handleMessage st now clientId data
  | Event.evPong clientId now => (handlePong st now clientId, [])
  | Event.evClose clientId => cleanupClient st clientId
  | Event.evError clientId => cleanupClient st clientId
  | Event.evFFmpegExit clientId => (handleFFmpegExit st clientId, [])
  | Event.evFFmpegError clientId => (st, handleFFmpegError st clientId)
  | Event.evFFmpegData clientId chunk => (st, handleFFmpegData st clientId chunk)
  | Event.evPingTick now => pingTick st now

/-- Run a sequence of events from a state, concatenating their effects. -/
def run (st : ServiceState) (es : List Event) : ServiceState × List Effect :=
  match es with
  | [] => (st, [])
  | e :: rest =>
    let r := step st e
    let r2 := run r.1 rest
    (r2.1, r.2 ++ r2.2)

/-- Effect classifier: a termination signal addressed to the given client's process. -/
def isSigFor (clientId : String) : Effect → Bool
  | Effect.sigToProc i _ => i = clientId
  | _ => false

/-- Number of termination signals sent to the given client's process. -/
def sigCount (effs : List Effect) (clientId : String) : Nat :=
  (effs.filter (isSigFor clientId)).length

/-- Effect classifier: an error control frame sent to the given client. -/
def isErrFrameFor (clientId : String) : Effect → Bool
  | Effect.wsSendText i m => i = clientId && isErrorMsg m
  | _ => false

/-- Effect classifier: a connection control frame sent to the given client. -/
def isConnFrameFor (clientId : String) : Effect → Bool
  | Effect.wsSendText i m => i = clientId && isConnectionMsg m
  | _ => false

/-- Effect classifier: a binary (media) frame sent to the given client. -/
def isBinFrameFor (clientId : String) : Effect → Bool
  | Effect.wsSendBinary i _ => i = clientId
  | _ => false

/-- Effect classifier: a write to the given client's FFmpeg stdin. -/
def isWriteFor (clientId : String) : Effect → Bool
  | Effect.stdinWrite i _ => i = clientId
  | _ => false

/-- A fresh FFmpeg process handle: spawned, not killed, stdin usable. -/
def procLive : FFmpegProc := { killed := false, stdinDestroyed := false }

/-- A registered client with an open socket and the given process handle. -/
def demoClient (clientId : String) (t : Nat) (proc : Option FFmpegProc) : ClientConnection :=
  { id := clientId, wsState := ReadyState.wsOpen, isAlive := true,
    lastPing := t, ffmpegProcess := proc }

/-- A service with no clients and the ping interval armed. -/
def initialState : ServiceState :=
  { clients := [], pingIntervalActive := true, pendingForceKills := [] }

/-- A service holding one registered client with a live FFmpeg process. -/
def demoState (clientId : String) : ServiceState :=
  { clients := [(clientId, demoClient clientId 0 (some procLive))],
    pingIntervalActive := true, pendingForceKills := [] }

theorem mapGet_mapSet_self {α : Type} (m : List (String × α)) (k : String) (v : α) :
    mapGet (mapSet m k v) k = some v := by
  induction m with
  | nil => simp [mapSet, mapGet]
  | cons e rest ih =>
    by_cases h : e.1 = k
    · simp [mapSet, mapGet, h]
    · simp [mapSet, mapGet, h, ih]

theorem mapGet_mapSet_ne {α : Type} (m : List (String × α)) (k k2 : String) (v : α)
    (h : k2 ≠ k) : mapGet (mapSet m k v) k2 = mapGet m k2 := by
  have hk : ¬ k = k2 := fun hh => h hh.symm
  induction m with
  | nil => simp [mapSet, mapGet, hk]
  | cons e rest ih =>
    by_cases he : e.1 = k
    · have he2 : ¬ e.1 = k2 := by
        rw [he]
        exact hk
      simp [mapSet, mapGet, he, hk, he2]
    · by_cases he2 : e.1 = k2
      · simp [mapSet, mapGet, he, he2, hk, h]
      · simp [mapSet, mapGet, he, he2, ih]

theorem mapGet_mapDelete_self {α : Type} (m : List (String × α)) (k : String) :
    mapGet (mapDelete m k) k = none := by
  induction m with
  | nil => simp [mapDelete, mapGet]
  | cons e rest ih =>
    by_cases h : e.1 = k
    · simpa [mapDelete, mapGet, h] using ih
    · simpa [mapDelete, mapGet, h] using ih

theorem mapGet_mapDelete_ne {α : Type} (m : List (String × α)) (k k2 : String)
    (h : k2 ≠ k) : mapGet (mapDelete m k) k2 = mapGet m k2 := by
  have hk : ¬ k = k2 := fun hh => h hh.symm
  induction m with
  | nil => simp [mapDelete, mapGet]
  | cons e rest ih =>
    by_cases he : e.1 = k
    · simpa [mapDelete, mapGet, he, hk] using ih
    · by_cases he2 : e.1 = k2
      · simp [mapDelete, mapGet, he, he2, hk, h]
      · simpa [mapDelete, mapGet, he, he2] using ih

theorem mapDelete_of_get_none {α : Type} (m : List (String × α)) (k : String)
    (h : mapGet m k = none) : mapDelete m k = m := by
  induction m with
  | nil => simp [mapDelete]
  | cons e rest ih =>
    by_cases he : e.1 = k
    · simp [mapGet, he] at h
    · simp only [mapGet, he, if_neg he] at h
      simp [mapDelete, he, ih h]

theorem mapGet_of_mem_nodup {α : Type} (m : List (String × α)) (k : String) (v : α)
    (hnd : (m.map Prod.fst).Nodup) (hm : (k, v) ∈ m) : mapGet m k = some v := by
  induction m with
  | nil => simp at hm
  | cons e rest ih =>
    simp only [List.map_cons, List.nodup_cons] at hnd
    rcases List.mem_cons.mp hm with hm1 | hm1
    · rw [← hm1]
      simp [mapGet]
    · have hk : ¬ e.1 = k := by
        intro hh
        exact hnd.1 (hh.symm ▸ List.mem_map.mpr ⟨(k, v), hm1, rfl⟩)
      simp only [mapGet, hk, if_neg hk]
      exact ih hnd.2 hm1

theorem run_nil (st : ServiceState) : run st [] = (st, []) := rfl

theorem run_cons (st : ServiceState) (e : Event) (es : List Event) :
    run st (e :: es) =
      ((run (step st e).1 es).1, (step st e).2 ++ (run (step st e).1 es).2) := rfl

theorem sendToFFmpeg_live (st : ServiceState) (clientId : String) (c : ClientConnection)
    (p : FFmpegProc) (b : Bytes) (hc : mapGet st.clients clientId = some c)
    (hp : c.ffmpegProcess = some p) (hk : p.killed = false) (hd : p.stdinDestroyed = false) :
    sendToFFmpeg st clientId b = [Effect.stdinWrite clientId b] := by
  simp [sendToFFmpeg, hc, hp, hk, hd]

theorem sendToFFmpeg_noProc (st : ServiceState) (clientId : String) (c : ClientConnection)
    (b : Bytes) (hc : mapGet st.clients clientId = some c)
    (hp : c.ffmpegProcess = none) : sendToFFmpeg st clientId b = [] := by
  simp [sendToFFmpeg, hc, hp]

theorem cleanupClient_none (st : ServiceState) (clientId : String)
    (h : mapGet st.clients clientId = none) : cleanupClient st clientId = (st, []) := by
  simp [cleanupClient, h]

theorem cleanupClient_clients (st : ServiceState) (clientId : String) :
    (cleanupClient st clientId).1.clients = mapDelete st.clients clientId := by
  cases h : mapGet st.clients clientId with
  | none =>
    simp [cleanupClient, h, mapDelete_of_get_none st.clients clientId h]
  | some c =>
    cases hp : c.ffmpegProcess with
    | none => simp [cleanupClient, h, hp]
    | some p =>
      cases hk : p.killed <;> simp [cleanupClient, h, hp, hk]

theorem cleanupClient_effects (st : ServiceState) (clientId : String) :
    (cleanupClient st clientId).2 = [] ∨
    (cleanupClient st clientId).2 = [Effect.sigToProc clientId "SIGTERM"] := by
  cases h : mapGet st.clients clientId with
  | none => simp [cleanupClient, h]
  | some c =>
    cases hp : c.ffmpegProcess with
    | none => simp [cleanupClient, h, hp]
    | some p =>
      cases hk : p.killed <;> simp [cleanupClient, h, hp, hk]

theorem cleanupClient_sig (st : ServiceState) (clientId : String) (c : ClientConnection)
    (p : FFmpegProc) (hc : mapGet st.clients clientId = some c)
    (hp : c.ffmpegProcess = some p) (hk : p.killed = false) :
    (cleanupClient st clientId).2 = [Effect.sigToProc clientId "SIGTERM"] := by
  simp [cleanupClient, hc, hp, hk]

/-- C1: refuted by the code. When the liveness monitor tears a session down
(timeout window expired at the tick), it calls ws.terminate() and deletes the
id from the registry directly, without killing the FFmpeg process; the close
event that follows runs cleanupClient on an id that is no longer registered,
which is a no-op. In this run a session with a live, unkilled subprocess is
torn down by the monitor and no termination signal is ever sent to the
subprocess, contradicting the claim that no teardown trigger leaves a live
subprocess behind. -/
theorem c1_liveness_timeout_never_signals_subprocess :
    mapGet (demoState "c1").clients "c1" = some (demoClient "c1" 0 (some procLive)) ∧
    procLive.killed = false ∧
    (run (demoState "c1") [Event.evPingTick 40000, Event.evClose "c1"]).2 =
      [Effect.wsTerminate "c1"] ∧
    sigCount (run (demoState "c1") [Event.evPingTick 40000, Event.evClose "c1"]).2 "c1" = 0 ∧
    mapGet (run (demoState "c1") [Event.evPingTick 40000, Event.evClose "c1"]).1.clients "c1" =
      none := by
  decide

/-- C2: refuted by the code. PONG_TIMEOUT (30 s) is shorter than PING_INTERVAL
(60 s), so at every tick the check now - lastPing > PONG_TIMEOUT measures the
time since the previous tick's pong, which is about one full interval. In this
run the client is probed at t = 20000, answers the probe 1 ms later (well
within the timeout window), and is nevertheless terminated at the next tick
t = 80000 (exactly one PING_INTERVAL later): a client that answers every probe
promptly is evicted by the monitor. -/
theorem c2_prompt_probe_answer_still_evicted :
    (run initialState
        [Event.evConnect "c2" true 0, Event.evPingTick 20000,
         Event.evPong "c2" 20001, Event.evPingTick 80000]).2 =
      [Effect.spawnFFmpeg "c2",
       Effect.wsSendText "c2"
         (CtrlMsg.connectionMsg "Connected to Black & White Video Processing Server" "c2"),
       Effect.wsPing "c2", Effect.wsTerminate "c2"] ∧
    (run initialState
        [Event.evConnect "c2" true 0, Event.evPingTick 20000,
         Event.evPong "c2" 20001, Event.evPingTick 80000]).1.clients = [] ∧
    20001 - 20000 ≤ PONG_TIMEOUT ∧
    80000 - 20000 = PING_INTERVAL := by
  decide

/-- C4: session teardown is idempotent. After one cleanupClient call the id is
gone from the registry, so a second (racing) call returns the state unchanged
with no effects and no error; across both calls at most one termination signal
is sent, and exactly one when the session held a live unkilled subprocess. -/
theorem c4_cleanup_idempotent (st : ServiceState) (clientId : String) :
    cleanupClient (cleanupClient st clientId).1 clientId =
      ((cleanupClient st clientId).1, []) ∧
    mapGet (cleanupClient st clientId).1.clients clientId = none ∧
    sigCount ((cleanupClient st clientId).2 ++
      (cleanupClient (cleanupClient st clientId).1 clientId).2) clientId ≤ 1 ∧
    (∀ c p, mapGet st.clients clientId = some c → c.ffmpegProcess = some p →
      p.killed = false →
      sigCount ((cleanupClient st clientId).2 ++
        (cleanupClient (cleanupClient st clientId).1 clientId).2) clientId = 1) := by
  have h1 : mapGet (cleanupClient st clientId).1.clients clientId = none := by
    rw [cleanupClient_clients]
    exact mapGet_mapDelete_self _ _
  have h2 := cleanupClient_none _ clientId h1
  refine ⟨h2, h1, ?_, ?_⟩
  · rcases cleanupClient_effects st clientId with he | he <;>
      simp [he, h2, sigCount, isSigFor]
  · intro c p hc hp hk
    rw [cleanupClient_sig st clientId c p hc hp hk, h2]
    simp [sigCount, isSigFor]

/-- Witness for C4 at a concrete one-client state with a live subprocess. -/
theorem c4_witness :
    sigCount ((cleanupClient (demoState "c4") "c4").2 ++
      (cleanupClient (cleanupClient (demoState "c4") "c4").1 "c4").2) "c4" = 1 :=
  (c4_cleanup_idempotent (demoState "c4") "c4").2.2.2
    (demoClient "c4" 0 (some procLive)) procLive (by decide) (by decide) (by decide)

/-- C10: disconnectClient returns true, closes the socket and removes the id
exactly when the id is registered; on an unregistered id it returns false and
leaves the state untouched. In both cases it performs no subprocess
termination: the session's ffmpegProcess is never signalled by this call. -/
theorem c10_disconnect_iff_registered (st : ServiceState) (clientId : String) :
    (∀ c, mapGet st.clients clientId = some c →
      disconnectClient st clientId =
        (true, { st with clients := mapDelete st.clients clientId },
         [Effect.wsClose clientId])) ∧
    (mapGet st.clients clientId = none →
      disconnectClient st clientId = (false, st, [])) ∧
    sigCount (disconnectClient st clientId).2.2 clientId = 0 := by
  cases h : mapGet st.clients clientId with
  | none => simp [disconnectClient, h, sigCount, isSigFor]
  | some c => simp [disconnectClient, h, sigCount, isSigFor]

/-- Witness for C10 at a concrete registered client: true result, id removed,
socket closed, no signal to the subprocess. -/
theorem c10_witness :
    disconnectClient (demoState "d1") "d1" =
      (true, { demoState "d1" with clients := mapDelete (demoState "d1").clients "d1" },
       [Effect.wsClose "d1"]) :=
  (c10_disconnect_iff_registered (demoState "d1") "d1").1
    (demoClient "d1" 0 (some procLive)) (by decide)

/-- True for an inbound frame the handler treats as a heartbeat: a text frame
whose JSON parse result has a type property equal to "heartbeat". -/
def isHeartbeatFrame : WsData → Bool
  | WsData.strData _ parsed => isHeartbeat parsed
  | WsData.bufData _ => false

/-- State after the heartbeat branch refreshes a client: lastPing set to the
current time and isAlive set back to true. -/
def refreshClient (st : ServiceState) (clientId : String) (c : ClientConnection)
    (now : Nat) : ServiceState :=
  { st with clients := mapSet st.clients clientId { c with lastPing := now, isAlive := true } }

theorem forwardData_live (st : ServiceState) (clientId : String) (c : ClientConnection)
    (p : FFmpegProc) (b : Bytes) (hc : mapGet st.clients clientId = some c)
    (hp : c.ffmpegProcess = some p) (hk : p.killed = false) (hd : p.stdinDestroyed = false) :
    forwardData st clientId b =
      if 0 < b.length then [Effect.stdinWrite clientId b] else [] := by
  by_cases hb : 0 < b.length <;>
    simp [forwardData, hb, sendToFFmpeg_live st clientId c p b hc hp hk hd]

/-- C3 counterexample: an empty binary frame is not the heartbeat control
message, the session has a live subprocess with usable stdin, yet the frame
is not forwarded to the subprocess input channel (the handler warns and drops
empty buffers), refuting the clause that every non-heartbeat frame is
forwarded. -/
theorem c3_counterexample_empty_frame_dropped :
    isHeartbeatFrame (WsData.bufData []) = false ∧
    (demoClient "c3" 0 (some procLive)).ffmpegProcess = some procLive ∧
    procLive.killed = false ∧
    procLive.stdinDestroyed = false ∧
    handleMessage (demoState "c3") 7 "c3" (WsData.bufData []) = (demoState "c3", []) := by
  decide

/-- C3 (amended): for a session with a live subprocess and usable stdin, a
text frame parsing to JSON with a type property equal to "heartbeat" refreshes
the liveness timestamp and alive flag and is not forwarded; every other
inbound frame with non-empty byte content is forwarded unchanged to the
subprocess input channel (text frames as their UTF-8 bytes), and empty frames
are dropped. -/
theorem c3_heartbeat_refreshes_others_forwarded
    (st : ServiceState) (clientId : String) (c : ClientConnection) (p : FFmpegProc)
    (now : Nat) (hc : mapGet st.clients clientId = some c)
    (hp : c.ffmpegProcess = some p) (hk : p.killed = false)
    (hd : p.stdinDestroyed = false) :
    (∀ s parsed, isHeartbeat parsed = true →
      handleMessage st now clientId (WsData.strData s parsed) =
        (refreshClient st clientId c now, [])) ∧
    (∀ data, isHeartbeatFrame data = false →
      handleMessage st now clientId data =
        (st, if 0 < (dataBytes data).length
             then [Effect.stdinWrite clientId (dataBytes data)]
             else [])) := by
  constructor
  · intro s parsed hh
    simp [handleMessage, hh, hc, refreshClient]
  · intro data hdata
    cases data with
    | strData s parsed =>
      simp only [isHeartbeatFrame] at hdata
      simp [handleMessage, hdata, dataBytes,
        forwardData_live st clientId c p (utf8Encode s) hc hp hk hd]
    | bufData b =>
      simp [handleMessage, dataBytes,
        forwardData_live st clientId c p b hc hp hk hd]

/-- Witness for C3 at a concrete session: the heartbeat control frame
refreshes lastPing to the current time and produces no forwarding. -/
theorem c3_witness :
    handleMessage (demoState "h3") 9 "h3"
        (WsData.strData "\x7b\"type\":\"heartbeat\"\x7d"
          (some (JVal.jobj [("type", JVal.jstr "heartbeat")]))) =
      (refreshClient (demoState "h3") "h3" (demoClient "h3" 0 (some procLive)) 9, []) :=
  (c3_heartbeat_refreshes_others_forwarded (demoState "h3") "h3"
      (demoClient "h3" 0 (some procLive)) procLive 9
      (by decide) (by decide) (by decide) (by decide)).1
    "\x7b\"type\":\"heartbeat\"\x7d" (some (JVal.jobj [("type", JVal.jstr "heartbeat")]))
    (by decide)

/-- C6: when the FFmpeg spawn throws for a new session, the client receives
exactly one error control frame, stays registered with an open socket and no
subprocess handle (degraded mode), every other session's registry entry is
untouched, and each subsequent binary data frame is accepted with no state
change, no write and no further frame — the failure is contained. -/
theorem c6_spawn_failure_degraded (st : ServiceState) (now now2 : Nat)
    (clientId : String) :
    ((handleConnect st now clientId false).2.filter (isErrFrameFor clientId)).length = 1 ∧
    mapGet (handleConnect st now clientId false).1.clients clientId =
      some (demoClient clientId now none) ∧
    (∀ otherId, otherId ≠ clientId →
      mapGet (handleConnect st now clientId false).1.clients otherId =
        mapGet st.clients otherId) ∧
    (∀ b : Bytes,
      handleMessage (handleConnect st now clientId false).1 now2 clientId
          (WsData.bufData b) =
        ((handleConnect st now clientId false).1, [])) := by
  have hcc : handleConnect st now clientId false =
      ({ st with clients := mapSet st.clients clientId (demoClient clientId now none) },
       [Effect.wsSendText clientId
          (CtrlMsg.errorMsg "Failed to initialize black & white video processing"),
        Effect.wsSendText clientId
          (CtrlMsg.connectionMsg "Connected to Black & White Video Processing Server"
            clientId)]) := by
    have hget2 : mapGet (mapSet st.clients clientId (demoClient clientId now none)) clientId =
        some (demoClient clientId now none) := mapGet_mapSet_self _ _ _
    simp only [demoClient] at hget2
    simp [handleConnect, createFFmpegProcess, sendToClient, demoClient, hget2]
  refine ⟨?_, ?_, ?_, ?_⟩
  · rw [hcc]
    simp [isErrFrameFor, isErrorMsg, isConnectionMsg]
  · rw [hcc]
    exact mapGet_mapSet_self _ _ _
  · intro otherId hne
    rw [hcc]
    exact mapGet_mapSet_ne _ _ _ _ hne
  · intro b
    rw [hcc]
    have hnp : sendToFFmpeg
        { st with clients := mapSet st.clients clientId (demoClient clientId now none) }
        clientId b = [] :=
      sendToFFmpeg_noProc _ _ (demoClient clientId now none) b (mapGet_mapSet_self _ _ _) rfl
    simp [handleMessage, forwardData, hnp]

/-- Witness for C6 at a concrete empty-registry service: one error frame and a
silently dropped data frame after a failed spawn. -/
theorem c6_witness :
    ((handleConnect initialState 3 "e6" false).2.filter (isErrFrameFor "e6")).length = 1 ∧
    handleMessage (handleConnect initialState 3 "e6" false).1 4 "e6"
        (WsData.bufData [1, 2]) =
      ((handleConnect initialState 3 "e6" false).1, []) :=
  ⟨(c6_spawn_failure_degraded initialState 3 4 "e6").1,
   (c6_spawn_failure_degraded initialState 3 4 "e6").2.2.2 [1, 2]⟩

theorem run_bufFrames_noProc (st : ServiceState) (clientId : String)
    (c : ClientConnection) (hc : mapGet st.clients clientId = some c)
    (hp : c.ffmpegProcess = none) (frames : List (Bytes × Nat)) :
    run st (frames.map (fun f => Event.evMessage clientId (WsData.bufData f.1) f.2)) =
      (st, []) := by
  induction frames with
  | nil => rfl
  | cons f fs ih =>
    have hnp := sendToFFmpeg_noProc st clientId c f.1 hc hp
    have hstep : step st (Event.evMessage clientId (WsData.bufData f.1) f.2) = (st, []) := by
      simp [step, handleMessage, forwardData, hnp]
    rw [List.map_cons, run_cons, hstep]
    simp [ih]

/-- C7: after the FFmpeg exit event the session's subprocess handle is
cleared, and any sequence of subsequent binary data frames leaves the state
completely unchanged with no effects: no respawn, no stdin write, no retry and
no teardown — the session stays registered in degraded mode. -/
theorem c7_no_respawn_after_exit (st : ServiceState) (clientId : String)
    (c : ClientConnection) (hc : mapGet st.clients clientId = some c)
    (frames : List (Bytes × Nat)) :
    mapGet (handleFFmpegExit st clientId).clients clientId =
      some { c with ffmpegProcess := none } ∧
    run (handleFFmpegExit st clientId)
        (frames.map (fun f => Event.evMessage clientId (WsData.bufData f.1) f.2)) =
      (handleFFmpegExit st clientId, []) := by
  have hclear : mapGet (handleFFmpegExit st clientId).clients clientId =
      some { c with ffmpegProcess := none } := by
    simp [handleFFmpegExit, hc, mapGet_mapSet_self]
  exact ⟨hclear, run_bufFrames_noProc _ clientId { c with ffmpegProcess := none } hclear rfl frames⟩

/-- Witness for C7 at a concrete session whose subprocess has exited. -/
theorem c7_witness :
    run (handleFFmpegExit (demoState "f7") "f7")
        [Event.evMessage "f7" (WsData.bufData [5]) 1] =
      (handleFFmpegExit (demoState "f7") "f7", []) :=
  (c7_no_respawn_after_exit (demoState "f7") "f7" (demoClient "f7" 0 (some procLive))
      (by decide) [([5], 1)]).2

/-- C5 counterexample: three binary frames, the middle one empty, arrive
before any subprocess output, but only two writes reach the subprocess input
channel: the empty frame is dropped, so the subprocess does not receive all N
frames as claimed. -/
theorem c5_counterexample_empty_frame_skipped :
    (run (demoState "c5")
        [Event.evMessage "c5" (WsData.bufData [7]) 1,
         Event.evMessage "c5" (WsData.bufData []) 2,
         Event.evMessage "c5" (WsData.bufData [9]) 3]).2 =
      [Effect.stdinWrite "c5" [7], Effect.stdinWrite "c5" [9]] ∧
    ((run (demoState "c5")
        [Event.evMessage "c5" (WsData.bufData [7]) 1,
         Event.evMessage "c5" (WsData.bufData []) 2,
         Event.evMessage "c5" (WsData.bufData [9]) 3]).2.filter (isWriteFor "c5")).length = 2 := by
  decide

theorem run_bufFrames_live (st : ServiceState) (clientId : String) (c : ClientConnection)
    (p : FFmpegProc) (hc : mapGet st.clients clientId = some c)
    (hp : c.ffmpegProcess = some p) (hk : p.killed = false)
    (hd : p.stdinDestroyed = false) (frames : List (Bytes × Nat)) :
    run st (frames.map (fun f => Event.evMessage clientId (WsData.bufData f.1) f.2)) =
      (st, ((frames.map Prod.fst).filter (fun b => decide (0 < b.length))).map
        (Effect.stdinWrite clientId)) := by
  induction frames with
  | nil => rfl
  | cons f fs ih =>
    have hstep : step st (Event.evMessage clientId (WsData.bufData f.1) f.2) =
        (st, if 0 < f.1.length then [Effect.stdinWrite clientId f.1] else []) := by
      simp [step, handleMessage, forwardData_live st clientId c p f.1 hc hp hk hd]
    rw [List.map_cons, run_cons, hstep, ih]
    by_cases hb : 0 < f.1.length <;> simp [hb]

theorem run_stdoutChunks_open (st : ServiceState) (clientId : String)
    (c : ClientConnection) (hc : mapGet st.clients clientId = some c)
    (hopen : c.wsState = ReadyState.wsOpen) (chunks : List Bytes) :
    run st (chunks.map (Event.evFFmpegData clientId)) =
      (st, (chunks.filter (fun b => decide (0 < b.length))).map
        (Effect.wsSendBinary clientId)) := by
  induction chunks with
  | nil => rfl
  | cons ch chs ih =>
    have hstep : step st (Event.evFFmpegData clientId ch) =
        (st, if 0 < ch.length then [Effect.wsSendBinary clientId ch] else []) := by
      by_cases hb : 0 < ch.length <;> simp [step, handleFFmpegData, hc, hopen, hb]
    rw [List.map_cons, run_cons, hstep, ih]
    by_cases hb : 0 < ch.length <;> simp [hb]

/-- C5 (amended): within one session with a live subprocess and open socket,
the non-empty inbound binary frames are written to the subprocess stdin in
exactly their receive order with bytes unchanged (empty frames are dropped),
and the non-empty subprocess stdout chunks are forwarded to the client in
exactly emission order with bytes unchanged (empty chunks are dropped); the
service state is unchanged by both directions. -/
theorem c5_order_preserved (st : ServiceState) (clientId : String) (c : ClientConnection)
    (p : FFmpegProc) (hc : mapGet st.clients clientId = some c)
    (hp : c.ffmpegProcess = some p) (hk : p.killed = false)
    (hd : p.stdinDestroyed = false) (hopen : c.wsState = ReadyState.wsOpen)
    (frames : List (Bytes × Nat)) (chunks : List Bytes) :
    run st (frames.map (fun f => Event.evMessage clientId (WsData.bufData f.1) f.2)) =
      (st, ((frames.map Prod.fst).filter (fun b => decide (0 < b.length))).map
        (Effect.stdinWrite clientId)) ∧
    run st (chunks.map (Event.evFFmpegData clientId)) =
      (st, (chunks.filter (fun b => decide (0 < b.length))).map
        (Effect.wsSendBinary clientId)) :=
  ⟨run_bufFrames_live st clientId c p hc hp hk hd frames,
   run_stdoutChunks_open st clientId c hc hopen chunks⟩

/-- Witness for C5 at a concrete session: two non-empty frames in, two writes
out in order; two non-empty chunks out, two client sends in order. -/
theorem c5_witness :
    run (demoState "w5")
        [Event.evMessage "w5" (WsData.bufData [1]) 1,
         Event.evMessage "w5" (WsData.bufData [2, 3]) 2] =
      (demoState "w5", [Effect.stdinWrite "w5" [1], Effect.stdinWrite "w5" [2, 3]]) ∧
    run (demoState "w5") [Event.evFFmpegData "w5" [4], Event.evFFmpegData "w5" [5]] =
      (demoState "w5", [Effect.wsSendBinary "w5" [4], Effect.wsSendBinary "w5" [5]]) := by
  have h := c5_order_preserved (demoState "w5") "w5" (demoClient "w5" 0 (some procLive))
    procLive (by decide) (by decide) (by decide) (by decide) (by decide)
    [([1], 1), ([2, 3], 2)] [[4], [5]]
  exact ⟨by simpa using h.1, by simpa using h.2⟩

/-- C9 counterexample: when the FFmpeg spawn throws during connection setup,
the error control frame is sent before the connection welcome frame (the
source calls createFFmpegProcess before sending the welcome), so the
connection frame is not the first frame to reach the client. -/
theorem c9_counterexample_error_frame_first :
    (handleConnect initialState 5 "c9" false).2 =
      [Effect.wsSendText "c9"
         (CtrlMsg.errorMsg "Failed to initialize black & white video processing"),
       Effect.wsSendText "c9"
         (CtrlMsg.connectionMsg "Connected to Black & White Video Processing Server" "c9")] ∧
    ((handleConnect initialState 5 "c9" false).2.head?.map (isConnFrameFor "c9")) =
      some false := by
  decide

/-- C9 (amended): every accepted connection sends exactly one connection
control frame, carrying the freshly generated non-empty clientId; when the
spawn succeeds it is the first frame sent to the client, and when the spawn
fails exactly one error frame precedes it; no media frame is emitted during
connection setup, and in any continuation of the run the setup effects come
before all later effects. -/
theorem c9_connection_frame_once (st : ServiceState) (now : Nat) (clientId : String)
    (spawnOk : Bool) (hid : clientId ≠ "") :
    ((handleConnect st now clientId spawnOk).2.filter (isConnFrameFor clientId)).length = 1 ∧
    (handleConnect st now clientId spawnOk).2 =
      (if spawnOk then [Effect.spawnFFmpeg clientId]
       else [Effect.wsSendText clientId
         (CtrlMsg.errorMsg "Failed to initialize black & white video processing")]) ++
      [Effect.wsSendText clientId
        (CtrlMsg.connectionMsg "Connected to Black & White Video Processing Server"
          clientId)] ∧
    ((handleConnect st now clientId spawnOk).2.filter (isBinFrameFor clientId)).length = 0 ∧
    clientId ≠ "" ∧
    (∀ es, run st (Event.evConnect clientId spawnOk now :: es) =
      ((run (handleConnect st now clientId spawnOk).1 es).1,
       (handleConnect st now clientId spawnOk).2 ++
         (run (handleConnect st now clientId spawnOk).1 es).2)) := by
  have hcc : (handleConnect st now clientId spawnOk).2 =
      (if spawnOk then [Effect.spawnFFmpeg clientId]
       else [Effect.wsSendText clientId
         (CtrlMsg.errorMsg "Failed to initialize black & white video processing")]) ++
      [Effect.wsSendText clientId
        (CtrlMsg.connectionMsg "Connected to Black & White Video Processing Server"
          clientId)] := by
    cases spawnOk <;>
      simp [handleConnect, createFFmpegProcess, sendToClient, mapGet_mapSet_self]
  refine ⟨?_, hcc, ?_, hid, fun es => run_cons st _ es⟩
  · rw [hcc]
    cases spawnOk <;>
      simp [isConnFrameFor, isBinFrameFor, isConnectionMsg, isErrorMsg]
  · rw [hcc]
    cases spawnOk <;>
      simp [isConnFrameFor, isBinFrameFor, isConnectionMsg, isErrorMsg]

/-- Witness for C9 at a concrete successful connect: the connection frame is
the only frame and follows only the spawn request. -/
theorem c9_witness :
    ((handleConnect initialState 6 "w9" true).2.filter (isConnFrameFor "w9")).length = 1 ∧
    (handleConnect initialState 6 "w9" true).2 =
      [Effect.spawnFFmpeg "w9",
       Effect.wsSendText "w9"
         (CtrlMsg.connectionMsg "Connected to Black & White Video Processing Server"
           "w9")] := by
  have h := c9_connection_frame_once initialState 6 "w9" true (by decide)
  exact ⟨h.1, by simpa using h.2.1⟩

theorem mem_mapDelete {α : Type} (m : List (String × α)) (k : String) (x : String × α)
    (hx : x ∈ mapDelete m k) : x ∈ m ∧ x.1 ≠ k := by
  induction m with
  | nil => simp [mapDelete] at hx
  | cons e rest ih =>
    obtain ⟨k2, v⟩ := e
    by_cases he : k2 = k
    · rw [mapDelete, if_pos he] at hx
      have := ih hx
      exact ⟨List.mem_cons_of_mem _ this.1, this.2⟩
    · rw [mapDelete, if_neg he] at hx
      rcases List.mem_cons.mp hx with h1 | h1
      · refine ⟨List.mem_cons.mpr (Or.inl h1), ?_⟩
        rw [h1]
        exact he
      · have := ih h1
        exact ⟨List.mem_cons_of_mem _ this.1, this.2⟩

theorem foldl_mapDelete_all {α : Type} (entries : List (String × α)) :
    ∀ m : List (String × α), (∀ x ∈ m, x.1 ∈ entries.map Prod.fst) →
      entries.foldl (fun m2 e => mapDelete m2 e.1) m = [] := by
  induction entries with
  | nil =>
    intro m hm
    cases m with
    | nil => rfl
    | cons x rest => exact absurd (hm x (List.mem_cons_self _ _)) (by simp)
  | cons e rest ih =>
    intro m hm
    rw [List.foldl_cons]
    apply ih
    intro x hx
    have hx2 := mem_mapDelete m e.1 x hx
    have hmem := hm x hx2.1
    simp only [List.map_cons, List.mem_cons] at hmem
    rcases hmem with h1 | h1
    · exact absurd h1 hx2.2
    · exact h1

theorem closeFold_clients (entries : List (String × ClientConnection))
    (acc : ServiceState × List Effect) :
    ((entries.foldl closeClientStep acc).1).clients =
      entries.foldl (fun m e => mapDelete m e.1) acc.1.clients := by
  induction entries generalizing acc with
  | nil => rfl
  | cons e rest ih =>
    rw [List.foldl_cons, List.foldl_cons, ih]
    congr 1
    exact cleanupClient_clients acc.1 e.1

theorem closeFold_effects_mono (entries : List (String × ClientConnection))
    (acc : ServiceState × List Effect) (x : Effect) (hx : x ∈ acc.2) :
    x ∈ (entries.foldl closeClientStep acc).2 := by
  induction entries generalizing acc with
  | nil => exact hx
  | cons e rest ih =>
    rw [List.foldl_cons]
    apply ih
    show x ∈ acc.2 ++ (cleanupClient acc.1 e.1).2 ++
      (if e.2.wsState = ReadyState.wsOpen then [Effect.wsClose e.1] else [])
    exact List.mem_append_left _ (List.mem_append_left _ hx)

theorem closeFold_effects (entries : List (String × ClientConnection))
    (acc : ServiceState × List Effect)
    (hnd : (entries.map Prod.fst).Nodup)
    (hag : ∀ e ∈ entries, mapGet acc.1.clients e.1 = some e.2) :
    ∀ e ∈ entries,
      (∀ p, e.2.ffmpegProcess = some p → p.killed = false →
        Effect.sigToProc e.1 "SIGTERM" ∈ (entries.foldl closeClientStep acc).2) ∧
      (e.2.wsState = ReadyState.wsOpen →
        Effect.wsClose e.1 ∈ (entries.foldl closeClientStep acc).2) := by
  induction entries generalizing acc with
  | nil =>
    intro e he
    simp at he
  | cons hd rest ih =>
    intro e he
    rw [List.foldl_cons]
    have hhd : mapGet acc.1.clients hd.1 = some hd.2 :=
      hag hd (List.mem_cons_self _ _)
    rcases List.mem_cons.mp he with he1 | he1
    · subst he1
      constructor
      · intro p hp hk
        apply closeFold_effects_mono
        have hsig := cleanupClient_sig acc.1 e.1 e.2 p hhd hp hk
        show Effect.sigToProc e.1 "SIGTERM" ∈ acc.2 ++ (cleanupClient acc.1 e.1).2 ++
          (if e.2.wsState = ReadyState.wsOpen then [Effect.wsClose e.1] else [])
        rw [hsig]
        simp
      · intro hopen
        apply closeFold_effects_mono
        show Effect.wsClose e.1 ∈ acc.2 ++ (cleanupClient acc.1 e.1).2 ++
          (if e.2.wsState = ReadyState.wsOpen then [Effect.wsClose e.1] else [])
        rw [if_pos hopen]
        simp
    · have hnd2 := List.nodup_cons.mp hnd
      apply ih (closeClientStep acc hd) hnd2.2 ?_ e he1
      intro e2 he2
      have hne : e2.1 ≠ hd.1 := by
        intro hh
        exact hnd2.1 (hh ▸ List.mem_map.mpr ⟨e2, he2, rfl⟩)
      have hcl : (closeClientStep acc hd).1.clients = mapDelete acc.1.clients hd.1 :=
        cleanupClient_clients acc.1 hd.1
      rw [hcl, mapGet_mapDelete_ne _ _ _ hne]
      exact hag e2 (List.mem_cons_of_mem _ he2)

/-- C8: on graceful shutdown the service close loop sends SIGTERM to the
subprocess of every registered session whose process is present and not yet
killed, emits a socket close for every open client, closes the WebSocket
server, starts the HTTP server close, arms the 10-second forced-exit timer,
and the process exits (code 0 when the clean close completes, else the forced
exit code 1); afterwards the registry is empty, so no registered subprocess is
orphaned by shutdown. -/
theorem c8_shutdown_terminates_all (st : ServiceState) (cleanDone : Bool)
    (hnd : (st.clients.map Prod.fst).Nodup) :
    (∀ clientId c p, (clientId, c) ∈ st.clients → c.ffmpegProcess = some p →
      p.killed = false →
      Effect.sigToProc clientId "SIGTERM" ∈ (gracefulShutdown st cleanDone).2) ∧
    (∀ clientId c, (clientId, c) ∈ st.clients → c.wsState = ReadyState.wsOpen →
      Effect.wsClose clientId ∈ (gracefulShutdown st cleanDone).2) ∧
    Effect.wssClose ∈ (gracefulShutdown st cleanDone).2 ∧
    Effect.serverCloseBegin ∈ (gracefulShutdown st cleanDone).2 ∧
    Effect.armForcedExit SHUTDOWN_FORCE_DELAY ∈ (gracefulShutdown st cleanDone).2 ∧
    Effect.processExit (if cleanDone then 0 else 1) ∈ (gracefulShutdown st cleanDone).2 ∧
    (gracefulShutdown st cleanDone).1.clients = [] := by
  have hag : ∀ e ∈ st.clients,
      mapGet (({ st with pingIntervalActive := false } : ServiceState),
        ([] : List Effect)).1.clients e.1 = some e.2 := by
    intro e he
    exact mapGet_of_mem_nodup _ _ _ hnd (by simpa using he)
  have hfold := closeFold_effects st.clients
    (({ st with pingIntervalActive := false } : ServiceState), ([] : List Effect)) hnd hag
  have hmem : ∀ x : Effect,
      x ∈ (st.clients.foldl closeClientStep
        (({ st with pingIntervalActive := false } : ServiceState), ([] : List Effect))).2 →
      x ∈ (gracefulShutdown st cleanDone).2 := by
    intro x hx
    show x ∈ ((st.clients.foldl closeClientStep
        (({ st with pingIntervalActive := false } : ServiceState), ([] : List Effect))).2 ++
        [Effect.wssClose]) ++
      [Effect.serverCloseBegin, Effect.armForcedExit SHUTDOWN_FORCE_DELAY] ++
      (if cleanDone then [Effect.processExit 0] else [Effect.processExit 1])
    exact List.mem_append_left _ (List.mem_append_left _ (List.mem_append_left _ hx))
  refine ⟨?_, ?_, ?_, ?_, ?_, ?_, ?_⟩
  · intro clientId c p hm hp hk
    exact hmem _ ((hfold (clientId, c) hm).1 p hp hk)
  · intro clientId c hm hopen
    exact hmem _ ((hfold (clientId, c) hm).2 hopen)
  · simp [gracefulShutdown, serviceClose]
  · simp [gracefulShutdown, serviceClose]
  · simp [gracefulShutdown, serviceClose]
  · cases cleanDone <;> simp [gracefulShutdown, serviceClose]
  · show ((st.clients.foldl closeClientStep
        (({ st with pingIntervalActive := false } : ServiceState), ([] : List Effect))).1).clients = []
    rw [closeFold_clients]
    exact foldl_mapDelete_all st.clients _ (fun x hx => List.mem_map.mpr ⟨x, hx, rfl⟩)

/-- Service with three registered sessions, each with a live subprocess. -/
def shutdownDemo : ServiceState :=
  { clients := [("s1", demoClient "s1" 0 (some procLive)),
                ("s2", demoClient "s2" 0 (some procLive)),
                ("s3", demoClient "s3" 0 (some procLive))],
    pingIntervalActive := true, pendingForceKills := [] }

/-- Witness for C8: shutting down with three active sessions signals all three
subprocesses and empties the registry. -/
theorem c8_witness :
    Effect.sigToProc "s1" "SIGTERM" ∈ (gracefulShutdown shutdownDemo true).2 ∧
    Effect.sigToProc "s2" "SIGTERM" ∈ (gracefulShutdown shutdownDemo true).2 ∧
    Effect.sigToProc "s3" "SIGTERM" ∈ (gracefulShutdown shutdownDemo true).2 ∧
    (gracefulShutdown shutdownDemo true).1.clients = [] := by
  have h := c8_shutdown_terminates_all shutdownDemo true (by decide)
  exact ⟨h.1 "s1" (demoClient "s1" 0 (some procLive)) procLive (by decide) rfl rfl,
         h.1 "s2" (demoClient "s2" 0 (some procLive)) procLive (by decide) rfl rfl,
         h.1 "s3" (demoClient "s3" 0 (some procLive)) procLive (by decide) rfl rfl,
         h.2.2.2.2.2.2⟩
